import Mathlib

/-!
Verification of the call-tracking core of the phonebook repository
(package `internal/calls`, plus the WebSocket framing helpers of
`internal/httpapi`).  Go strings are modelled as Lean `String`
(a wrapper around `List Char`); Go maps as association lists with
unique keys; `time.Time` values as `Int` seconds.  Every definition
below is a direct transcription of the corresponding Go function.
-/

namespace Phonebook

/-! ## Go string primitives (package `strings` as used by the sources) -/

/-- Whitespace recognised by `strings.TrimSpace` (ASCII part). -/
def isSpaceChar (c : Char) : Bool :=
  c = ' ' || c = '\t' || c = '\n' || c = '\x0b' || c = '\x0c' || c = '\r'

/-- Trim whitespace from both ends of a character list. -/
def trimChars (l : List Char) : List Char :=
  ((l.dropWhile isSpaceChar).reverse.dropWhile isSpaceChar).reverse

/-- `strings.TrimSpace`. -/
def goTrim (s : String) : String := ⟨trimChars s.data⟩

/-- ASCII lower-casing of one character (as in `strings.ToLower` for ASCII). -/
def asciiLower (c : Char) : Char :=
  if 'A' ≤ c && c ≤ 'Z' then Char.ofNat (c.toNat + 32) else c

/-- `strings.ToLower` (ASCII range; AMI field values are ASCII). -/
def goToLower (s : String) : String := ⟨s.data.map asciiLower⟩

/-- `strings.EqualFold` (ASCII range). -/
def goEqualFold (a b : String) : Bool := goToLower a == goToLower b

/-- Does `l` start with `sub`? -/
def startsWithChars (sub l : List Char) : Bool :=
  match sub, l with
  | [], _ => true
  | _ :: _, [] => false
  | a :: as, b :: bs => a == b && startsWithChars as bs

/-- Does `l` contain `sub` as a contiguous run? -/
def containsChars (sub : List Char) : List Char → Bool
  | [] => startsWithChars sub []
  | c :: rest => startsWithChars sub (c :: rest) || containsChars sub rest

/-- `strings.Contains s sub`. -/
def goContains (s sub : String) : Bool := containsChars sub.data s.data

/-- `strings.Split` on a one-character separator, over character lists. -/
def splitChar (sep : Char) : List Char → List (List Char)
  | [] => [[]]
  | c :: rest =>
    let r := splitChar sep rest
    if c = sep then [] :: r
    else (c :: r.headD []) :: r.tail

/-- `strings.SplitN s sep 2` first component (text before the first `sep`). -/
def beforeFirst (sep : Char) (s : String) : String :=
  ⟨(splitChar sep s.data).headD []⟩

/-- `strings.SplitN s sep 2` second component (text after the first `sep`,
with later separators kept). -/
def afterFirst (sep : Char) (s : String) : String :=
  ⟨List.intercalate [sep] (splitChar sep s.data).tail⟩

/-- Characters kept by `cleanNumber`: digits and `+ * #`. -/
def isNumChar (c : Char) : Bool :=
  ('0' ≤ c && c ≤ '9') || c = '+' || c = '*' || c = '#'

/-- `cleanNumber` from `internal/calls`: trim, then keep only digits and `+ * #`. -/
def cleanNumber (raw : String) : String :=
  let raw := goTrim raw
  if raw == "" then "" else ⟨raw.data.filter isNumChar⟩

/-- `cleanTarget` from `internal/calls`: cleaned number, with the Asterisk
pseudo-extensions `s`, `h`, `i` treated as empty. -/
def cleanTarget (raw : String) : String :=
  let r := cleanNumber raw
  if r == "" || r == "s" || r == "h" || r == "i" then "" else r

/-- `firstNonEmpty` from `internal/calls`. -/
def firstNonEmpty : List String → String
  | [] => ""
  | v :: rest => if goTrim v != "" then goTrim v else firstNonEmpty rest

/-- `parseDialString` from `internal/calls`: text before the first comma,
then before the first `&`; if a `/` remains, the part after the last `/`. -/
def parseDialString (raw : String) : String :=
  let raw := goTrim raw
  if raw == "" then "" else
  let part := (splitChar ',' raw.data).headD []
  let part := (splitChar '&' part).headD []
  let part := if part.contains '/' then (splitChar '/' part).getLastD [] else part
  goTrim ⟨part⟩

/-- `channelPeer` from `internal/calls`: strip the technology prefix up to the
first `/`, then the `-uniqueid` suffix and the `@domain` suffix. -/
def channelPeer (channel : String) : String :=
  let channel := goTrim channel
  if channel == "" then "" else
  let channel := if goContains channel "/" then afterFirst '/' channel else channel
  let channel := beforeFirst '-' channel
  beforeFirst '@' channel

example : parseDialString "PJSIP/8081,30" = "8081" := by decide
example : parseDialString "PJSIP/2601&PJSIP/2602,20" = "2601" := by decide
example : channelPeer "PJSIP/2601-0000abcd" = "2601" := by decide
example : cleanTarget "s" = "" := by decide
example : cleanNumber " +1 (555) 010 " = "+1555010" := by decide

/-! ## WebSocket transport (`internal/httpapi`): accept key and frame header

Models `crypto/sha1` and `encoding/base64` of the Go standard library as used
by `websocketAcceptKey`, and the header bytes written by
`writeWebSocketFrame`.  Byte strings are `List Nat` with entries below 256;
32-bit words are `Nat` reduced modulo `2 ^ 32`.
-/

/-- Reduce to a 32-bit word. -/
def u32 (x : Nat) : Nat := x % 4294967296

/-- Rotate a 32-bit word left by `n` bits. -/
def rotl (n x : Nat) : Nat := u32 ((x <<< n) ||| (x >>> (32 - n)))

/-- Big-endian bytes of `x`, `n` bytes wide (as `binary.BigEndian`). -/
def beBytes : Nat → Nat → List Nat
  | 0, _ => []
  | n + 1, x => beBytes n (x >>> 8) ++ [x % 256]

/-- Value of a big-endian byte string. -/
def beVal (l : List Nat) : Nat := l.foldl (fun acc b => acc * 256 + b) 0

/-- SHA-1 message padding: `0x80`, zeros to 56 mod 64, 8-byte bit length. -/
def sha1Pad (msg : List Nat) : List Nat :=
  msg ++ 0x80 :: List.replicate ((119 - msg.length % 64) % 64) 0
      ++ beBytes 8 (msg.length * 8)

/-- Split a byte string into `n` chunks of 64 bytes. -/
def chunks64Aux : Nat → List Nat → List (List Nat)
  | 0, _ => []
  | n + 1, l => l.take 64 :: chunks64Aux n (l.drop 64)

/-- Split a padded message into 64-byte chunks. -/
def chunks64 (l : List Nat) : List (List Nat) := chunks64Aux (l.length / 64) l

/-- Big-endian 32-bit words of a byte string. -/
def bytesToWords : List Nat → List Nat
  | b0 :: b1 :: b2 :: b3 :: rest =>
    ((((b0 <<< 8) ||| b1) <<< 8 ||| b2) <<< 8 ||| b3) :: bytesToWords rest
  | _ => []

/-- SHA-1 message-schedule extension; `ws` holds the words newest-first. -/
def sha1Extend : Nat → List Nat → List Nat
  | 0, ws => ws
  | n + 1, ws =>
    sha1Extend n
      (rotl 1 (((ws.getD 2 0) ^^^ (ws.getD 7 0)) ^^^ ((ws.getD 13 0) ^^^ (ws.getD 15 0))) :: ws)

/-- SHA-1 round function. -/
def sha1F (i b c d : Nat) : Nat :=
  if i < 20 then (b &&& c) ||| ((b ^^^ 4294967295) &&& d)
  else if i < 40 then (b ^^^ c) ^^^ d
  else if i < 60 then ((b &&& c) ||| (b &&& d)) ||| (c &&& d)
  else (b ^^^ c) ^^^ d

/-- SHA-1 round constants. -/
def sha1K (i : Nat) : Nat :=
  if i < 20 then 0x5A827999
  else if i < 40 then 0x6ED9EBA1
  else if i < 60 then 0x8F1BBCDC
  else 0xCA62C1D6

/-- One SHA-1 compression step. -/
def sha1Step (st : Nat × Nat × Nat × Nat × Nat) (p : Nat × Nat) :
    Nat × Nat × Nat × Nat × Nat :=
  match st with
  | (a, b, c, d, e) =>
    (u32 (rotl 5 a + sha1F p.1 b c d + e + sha1K p.1 + p.2), a, rotl 30 b, c, d)

/-- Compress one 64-byte chunk into the running hash state. -/
def sha1Compress (h : List Nat) (chunk : List Nat) : List Nat :=
  let ws := (sha1Extend 64 (bytesToWords chunk).reverse).reverse
  let st := ((List.range 80).zip ws).foldl sha1Step
    (h.getD 0 0, h.getD 1 0, h.getD 2 0, h.getD 3 0, h.getD 4 0)
  match st with
  | (a, b, c, d, e) =>
    [u32 (h.getD 0 0 + a), u32 (h.getD 1 0 + b), u32 (h.getD 2 0 + c),
     u32 (h.getD 3 0 + d), u32 (h.getD 4 0 + e)]

/-- SHA-1 digest (20 bytes) of a byte string. -/
def sha1 (msg : List Nat) : List Nat :=
  let hs := (chunks64 (sha1Pad msg)).foldl sha1Compress
    [0x67452301, 0xEFCDAB89, 0x98BADCFE, 0x10325476, 0xC3D2E1F0]
  (hs.map (beBytes 4)).flatten

/-- Standard base64 alphabet. -/
def b64Char (n : Nat) : Char :=
  "ABCDEFGHIJKLMNOPQRSTUVWXYZabcdefghijklmnopqrstuvwxyz0123456789+/".data.getD n 'A'

/-- `base64.StdEncoding.EncodeToString`. -/
def base64Encode : List Nat → List Char
  | [] => []
  | [a] => [b64Char (a >>> 2), b64Char ((a % 4) <<< 4), '=', '=']
  | [a, b] => [b64Char (a >>> 2), b64Char (((a % 4) <<< 4) ||| (b >>> 4)),
               b64Char ((b % 16) <<< 2), '=']
  | a :: b :: c :: rest =>
    b64Char (a >>> 2) :: b64Char (((a % 4) <<< 4) ||| (b >>> 4)) ::
    b64Char (((b % 16) <<< 2) ||| (c >>> 6)) :: b64Char (c % 64) :: base64Encode rest

/-- `websocketAcceptKey` from `internal/httpapi`: base64 of the SHA-1 of the
client key concatenated with the fixed RFC 6455 GUID. -/
def websocketAcceptKey (key : String) : String :=
  ⟨base64Encode (sha1 ((key ++ "258EAFA5-E914-47DA-95CA-C5AB0DC85B11").data.map Char.toNat))⟩

/-- Header bytes written by `writeWebSocketFrame` from `internal/httpapi`:
fin bit plus opcode, then the three-tier length field.  The 8-byte tier
stores `uint64(length)`, which `beBytes 8` reproduces (it reduces every
byte modulo 256). -/
def writeWebSocketFrameHeader (opcode : Nat) (length : Nat) : List Nat :=
  let b0 := 0x80 ||| (opcode &&& 0x0f)
  if length ≤ 125 then [b0, length]
  else if length ≤ 65535 then [b0, 126, (length >>> 8) % 256, length % 256]
  else [b0, 127] ++ beBytes 8 length

/-! ## AMI events and field lookup (`internal/calls`) -/

/-- An AMI event: key/value pairs as parsed by `readAMIMessage` (a Go map
with unique keys; iteration order of the case-insensitive second pass is
fixed to list order here). -/
abbrev Event := List (String × String)

/-- `eventValue` from `internal/calls`: first pass exact key match, second
pass case-insensitive, returning the first non-empty trimmed value. -/
def eventValue (event : Event) (keys : List String) : String :=
  match keys.findSome? (fun key =>
      (event.find? (fun kv => kv.1 == key && goTrim kv.2 != "")).map
        (fun kv => goTrim kv.2)) with
  | some v => v
  | none =>
    match keys.findSome? (fun key =>
        (event.find? (fun kv => goEqualFold kv.1 key && goTrim kv.2 != "")).map
          (fun kv => goTrim kv.2)) with
    | some v => v
    | none => ""

/-- `linkedIDFor` from `internal/calls`. -/
def linkedIDFor (event : Event) : String :=
  let id := goTrim (firstNonEmpty [
    eventValue event ["Linkedid", "LinkedID", "LinkedId"],
    eventValue event ["DestLinkedid", "DestLinkedID", "DestLinkedId"],
    eventValue event ["SrcLinkedid", "SrcLinkedID", "SrcLinkedId"],
    eventValue event ["Uniqueid", "UniqueID", "UniqueId"],
    eventValue event ["DestUniqueid", "DestUniqueID", "DestUniqueId"],
    eventValue event ["SrcUniqueid", "SrcUniqueID", "SrcUniqueId"]])
  if id != "" then id
  else
    let channel := goTrim (eventValue event ["Channel", "DestChannel", "SrcChannel"])
    if channel == "" then "" else channel

/-- `channelKey` from `internal/calls`. -/
def channelKey (event : Event) : String :=
  goTrim (firstNonEmpty [
    eventValue event ["Uniqueid", "UniqueID", "UniqueId"],
    eventValue event ["Channel"]])

/-- `isPresenceEvent` from `internal/calls`. -/
def isPresenceEvent (eventType : String) : Bool :=
  let t := goToLower (goTrim eventType)
  t == "contactstatus" || t == "endpointstatus" || t == "devicestatechange" ||
    t == "peerstatus" || t == "endpointlist"

/-- Index of the first occurrence of `c` (`strings.Index` when present). -/
def findIdxChar (c : Char) (l : List Char) : Nat := l.findIdx (· == c)

/-- Index of the last occurrence of `c` (`strings.LastIndex`; `none` for -1). -/
def lastIdxChar (c : Char) (l : List Char) : Option Nat :=
  match l.reverse.findIdx? (· == c) with
  | some i => some (l.length - 1 - i)
  | none => none

/-- The `user:port@host` reduction step of `cleanPresenceID`. -/
def sipHostSegment (raw : String) : String :=
  let at_ := findIdxChar '@' raw.data
  if 0 < at_ then
    match lastIdxChar ':' (raw.data.take at_) with
    | some colon => ⟨(raw.data.take at_).drop (colon + 1)⟩
    | none => raw
  else raw

/-- `cleanPresenceID` from `internal/calls`.  (On the angle-bracket step Go
slices `raw[Index("<")+1 : LastIndex(">")]` and would panic on crossed
bounds; the crossed case yields `""` here.) -/
def cleanPresenceID (raw : String) : String :=
  let raw := goTrim raw
  if raw == "" then "" else
  let raw := if goContains raw "<" && goContains raw ">" then
      ⟨(raw.data.take ((lastIdxChar '>' raw.data).getD 0)).drop
        (findIdxChar '<' raw.data + 1)⟩
    else raw
  let raw := if goContains raw ":" && goContains raw "@" then sipHostSegment raw else raw
  let raw := if goContains raw "/" then afterFirst '/' raw else raw
  let raw := beforeFirst '-' raw
  let raw := beforeFirst '@' raw
  let n := cleanNumber raw
  if n != "" then n else goTrim raw

/-- `presenceIDFor` from `internal/calls`: first candidate field whose
cleaned identity is non-empty. -/
def presenceIDFor (event : Event) : Option String :=
  [eventValue event ["EndpointName", "Endpoint", "AOR", "ObjectName", "Peer"],
   eventValue event ["URI", "Contact"],
   eventValue event ["Channel", "DestChannel", "SrcChannel"],
   eventValue event ["Device"]].findSome? (fun candidate =>
    let id := cleanPresenceID candidate
    if id != "" then some id else none)

/-- `strconv.Atoi`: optional sign followed by at least one digit. -/
def digitsValAux : List Char → Nat → Option Nat
  | [], acc => some acc
  | c :: rest, acc =>
    if '0' ≤ c && c ≤ '9' then digitsValAux rest (acc * 10 + (c.toNat - 48))
    else none

/-- `strconv.Atoi` (overflow of 64-bit ints is not modelled). -/
def goAtoi (s : String) : Option Int :=
  match s.data with
  | [] => none
  | '+' :: rest =>
    if rest.isEmpty then none else (digitsValAux rest 0).map (fun n => (n : Int))
  | '-' :: rest =>
    if rest.isEmpty then none else (digitsValAux rest 0).map (fun n => -(n : Int))
  | l => (digitsValAux l 0).map (fun n => (n : Int))

/-- Does `s` contain any of `tokens` (a Go `switch` case with several
`strings.Contains` conditions)? -/
def containsAny (s : String) (tokens : List String) : Bool :=
  tokens.any (fun t => goContains s t)

/-- Strip spaces, underscores and hyphens (`strings.NewReplacer` in
`presenceStateFor`). -/
def stripSeparators (s : String) : String :=
  ⟨s.data.filter (fun c => !(c = ' ' || c = '_' || c = '-'))⟩

/-- `presenceStateFor` from `internal/calls`: derive a coarse presence state
and detail text from a presence-family event. -/
def presenceStateFor (eventType : String) (event : Event) : String × String :=
  let raw := goToLower (goTrim (firstNonEmpty [
    eventValue event ["DeviceState"],
    eventValue event ["Status"],
    eventValue event ["EndpointStatus"],
    eventValue event ["PeerStatus"],
    eventValue event ["State"]]))
  let detail := goTrim (firstNonEmpty [
    eventValue event ["ActiveChannels"],
    eventValue event ["Cause"],
    eventValue event ["SubEvent"],
    eventValue event ["URI"],
    eventValue event ["ContactStatus"]])
  let channelsRaw := goTrim (eventValue event ["ActiveChannels"])
  let inUseByCount := channelsRaw != "" &&
    (match goAtoi channelsRaw with
     | some n => decide (0 < n)
     | none => false)
  if inUseByCount then ("in-use", detail)
  else
    let raw := if raw == "" then eventType else raw
    let normalized := stripSeparators raw
    if containsAny normalized ["inuse", "busy", "onhold", "ring", "dial"] then
      ("in-use", detail)
    else if containsAny normalized
        ["notinuse", "reachable", "online", "registered", "avail", "ok", "ready"] then
      ("connected", detail)
    else if containsAny normalized
        ["unreachable", "offline", "unavailable", "nonqualified", "unknown",
         "lagged", "removed", "invalid", "failed"] then
      ("disconnected", detail)
    else ("disconnected", detail)

/-- End-reason classification performed inline by `HandleAMIEvent` on a
hangup that empties the leg set. -/
def classifyEndReason (endReason : String) : String :=
  let reason := goToLower endReason
  if reason != "" then
    if containsAny reason
        ["404", "not found", "error", "failed", "congestion", "unavailable", "reject"] then
      "error"
    else if containsAny reason ["no answer", "busy", "cancel", "timeout"] then
      "no-answer"
    else if containsAny reason ["normal clearing", "answered"] then
      "answered"
    else "completed"
  else "completed"

/-! ## Call/history/presence data model (`internal/calls`) -/

/-- `Call` (an active call's public fields). -/
structure Call where
  ID : String
  From : String
  To : String
  State : String
  Start : Int
  Updated : Int
deriving DecidableEq

/-- `HistoryCall` (a completed call). -/
structure HistoryCall where
  ID : String
  From : String
  To : String
  State : String
  EndReason : String
  Start : Int
  End : Int
  DurationSec : Int
deriving DecidableEq

/-- `Presence` (AMI-observed endpoint/contact presence). -/
structure Presence where
  ID : String
  State : String
  Detail : String
  Updated : Int
deriving DecidableEq

/-- `activeCall`: the public `Call` plus the owned set of channel legs. -/
structure ActiveCall where
  call : Call
  channels : List String
deriving DecidableEq

/-- `Options` (retention behaviour). -/
structure Options where
  MaxHistory : Nat
  Retention : Int
deriving DecidableEq

/-- The mutable state guarded by `Service.mu`: active calls, history,
presence and the generation timestamp. -/
structure ServiceState where
  active : List (String × ActiveCall)
  history : List HistoryCall
  presence : List (String × Presence)
  updated : Int
deriving DecidableEq

/-- Go map lookup on an association list. -/
def mapLookup {α : Type} (m : List (String × α)) (k : String) : Option α :=
  match m.find? (fun kv => kv.1 == k) with
  | some kv => some kv.2
  | none => none

/-- Go map assignment: replace the entry for `k`, or append a new one. -/
def mapInsert {α : Type} : List (String × α) → String → α → List (String × α)
  | [], k, v => [(k, v)]
  | kv :: rest, k, v =>
    if kv.1 == k then (k, v) :: rest else kv :: mapInsert rest k v

/-- Go `delete` on a map. -/
def mapErase {α : Type} (m : List (String × α)) (k : String) : List (String × α) :=
  m.filter (fun kv => !(kv.1 == k))

/-- Insertion into a `map[string]struct{}` used as a set. -/
def setInsert (s : List String) (x : String) : List String :=
  if s.contains x then s else s ++ [x]

/-- Deletion from a `map[string]struct{}` used as a set. -/
def setErase (s : List String) (x : String) : List String :=
  s.filter (fun y => !(y == x))

/-- The loop body of `pruneLocked`: `kept` counts entries already kept; an
entry older than the cutoff is skipped, and the loop stops right after the
kept count reaches `MaxHistory`. -/
def pruneGo (cutoff : Int) (maxHistory : Nat) : List HistoryCall → Nat → List HistoryCall
  | [], _ => []
  | item :: rest, kept =>
    if item.End < cutoff then pruneGo cutoff maxHistory rest kept
    else if maxHistory ≤ kept + 1 then [item]
    else item :: pruneGo cutoff maxHistory rest (kept + 1)

/-- `pruneLocked` from `internal/calls`: drop entries older than the
retention window and cap the count at `MaxHistory`. -/
def pruneLocked (opts : Options) (now : Int) (history : List HistoryCall) : List HistoryCall :=
  pruneGo (now - opts.Retention) opts.MaxHistory history 0

/-- `getOrCreateCallLocked`, split into its creation half: the looked-up
call when present, else a fresh "ringing" call registered under `id`. -/
def ensureCall (existing : Option ActiveCall) (id : String) (now : Int) : ActiveCall :=
  existing.getD
    { call := { ID := id, From := "", To := "", State := "ringing",
                Start := now, Updated := now },
      channels := [] }

/-- The shared body of the `dialbegin` case and the `dial`/`SubEvent: Begin`
case of `HandleAMIEvent` (textually duplicated in the Go source). -/
def dialBeginFold (event : Event) (now : Int) (linkedID : String)
    (existing : Option ActiveCall) : ActiveCall :=
  let call := ensureCall existing linkedID now
  let fromV := firstNonEmpty [
    cleanNumber (eventValue event ["CallerIDNum", "CallerIDnum"]),
    cleanNumber (channelPeer (eventValue event ["SrcChannel", "SourceChannel"]))]
  let call := if call.call.From == "" && fromV != "" then
      { call with call := { call.call with From := fromV } } else call
  let toV := firstNonEmpty [
    cleanNumber (parseDialString (eventValue event ["DialString", "Dialstring"])),
    cleanNumber (channelPeer (eventValue event ["DestChannel", "DestinationChannel"]))]
  let call := if call.call.To == "" && toV != "" then
      { call with call := { call.call with To := toV } } else call
  let src := goTrim (eventValue event ["SrcUniqueID", "SrcUniqueId", "SrcUniqueid"])
  let call := if src != "" then
      { call with channels := setInsert call.channels src } else call
  let dst := goTrim (eventValue event ["DestUniqueID", "DestUniqueId", "DestUniqueid"])
  let call := if dst != "" then
      { call with channels := setInsert call.channels dst } else call
  { call with call := { call.call with State := "dialing" } }

/-- The `newchannel` case of `HandleAMIEvent`: register the channel leg,
fill the still-empty parties, adopt a channel-state description; returns
the call together with the branch's `changed` flag. -/
def newchannelFold (event : Event) (now : Int) (linkedID : String)
    (existing : Option ActiveCall) : ActiveCall × Bool :=
  let call := ensureCall existing linkedID now
  let channel := channelKey event
  let call := if channel != "" then
      { call with channels := setInsert call.channels channel } else call
  let changed := channel != ""
  let fromV := firstNonEmpty [
    cleanNumber (eventValue event ["CallerIDNum", "CallerIDnum"]),
    cleanNumber (channelPeer (eventValue event ["Channel"]))]
  let fillFrom := call.call.From == "" && fromV != ""
  let call := if fillFrom then
      { call with call := { call.call with From := fromV } } else call
  let changed := changed || fillFrom
  let toV := firstNonEmpty [
    cleanTarget (eventValue event ["Exten"]),
    cleanNumber (eventValue event ["ConnectedLineNum", "ConnectedLineNum"])]
  let fillTo := call.call.To == "" && toV != ""
  let call := if fillTo then
      { call with call := { call.call with To := toV } } else call
  let changed := changed || fillTo
  let stateV := goToLower (goTrim (eventValue event ["ChannelStateDesc", "Channelstatedesc"]))
  let call := if stateV != "" then
      { call with call := { call.call with State := stateV } } else call
  (call, changed || (stateV != ""))

/-- The common wrap-up of `HandleAMIEvent`: write the (created or mutated)
call back (or delete the finished call), and, when anything changed, stamp
the call's updated time, prune history and bump the generation timestamp.
The returned `Bool` is whether subscribers are notified (`notify(subs)`
runs exactly when `changed`). -/
def finishEvent (opts : Options) (now : Int) (s : ServiceState)
    (callAfter : Option ActiveCall) (removedID : Option String)
    (linkedID : String) (history : List HistoryCall)
    (presence : List (String × Presence)) (changed : Bool) : ServiceState × Bool :=
  let active :=
    match removedID with
    | some id => mapErase s.active id
    | none =>
      match callAfter with
      | some c =>
        mapInsert s.active linkedID
          { c with call := { c.call with Updated := if changed then now else c.call.Updated } }
      | none => s.active
  ({ active := active,
     history := if changed then pruneLocked opts now history else history,
     presence := presence,
     updated := if changed then now else s.updated }, changed)

/-- `HandleAMIEvent` from `internal/calls`: fold one AMI event into the
state; `now` stands for `time.Now().UTC()` at entry. -/
def HandleAMIEvent (opts : Options) (now : Int) (event : Event)
    (s : ServiceState) : ServiceState × Bool :=
  let eventType := goToLower (goTrim (eventValue event ["Event"]))
  let linkedID := linkedIDFor event
  if linkedID == "" && !isPresenceEvent eventType then (s, false)
  else
    let call0 : Option ActiveCall :=
      if linkedID == "" then none else mapLookup s.active linkedID
    if eventType == "newchannel" then
      let cc := newchannelFold event now linkedID call0
      finishEvent opts now s (some cc.1) none linkedID s.history s.presence cc.2
    else if eventType == "dialbegin" then
      finishEvent opts now s (some (dialBeginFold event now linkedID call0)) none
        linkedID s.history s.presence true
    else if eventType == "dial" then
      let subEvent := goToLower (goTrim (eventValue event ["SubEvent", "Subevent"]))
      if subEvent == "begin" then
        finishEvent opts now s (some (dialBeginFold event now linkedID call0)) none
          linkedID s.history s.presence true
      else finishEvent opts now s none none linkedID s.history s.presence false
    else if eventType == "newstate" then
      let call := ensureCall call0 linkedID now
      let stateV := goToLower (goTrim (eventValue event ["ChannelStateDesc", "Channelstatedesc"]))
      let call := if stateV != "" then
          { call with call := { call.call with State := stateV } } else call
      finishEvent opts now s (some call) none linkedID s.history s.presence (stateV != "")
    else if eventType == "bridgeenter" then
      let call := ensureCall call0 linkedID now
      let call := { call with call := { call.call with State := "active" } }
      let channel := channelKey event
      let call := if channel != "" then
          { call with channels := setInsert call.channels channel } else call
      finishEvent opts now s (some call) none linkedID s.history s.presence true
    else if eventType == "bridgeleave" then
      match call0 with
      | none => finishEvent opts now s none none linkedID s.history s.presence false
      | some call =>
        finishEvent opts now s
          (some { call with call := { call.call with State := "ringing" } }) none
          linkedID s.history s.presence true
    else if eventType == "hangup" then
      match call0 with
      | none => finishEvent opts now s none none linkedID s.history s.presence false
      | some call =>
        let channel := channelKey event
        let call := if channel != "" then
            { call with channels := setErase call.channels channel } else call
        let changed := channel != ""
        if call.channels.isEmpty then
          let endReason := goTrim (firstNonEmpty [
            eventValue event ["Cause-txt"],
            eventValue event ["Cause"],
            eventValue event ["DialStatus"]])
          let h : HistoryCall :=
            { ID := call.call.ID, From := call.call.From, To := call.call.To,
              State := classifyEndReason endReason, EndReason := endReason,
              Start := call.call.Start, End := now,
              DurationSec := now - call.call.Start }
          finishEvent opts now s none (some call.call.ID) linkedID
            (h :: s.history) s.presence true
        else
          finishEvent opts now s (some call) none linkedID s.history s.presence changed
    else if isPresenceEvent eventType then
      match presenceIDFor event with
      | none => finishEvent opts now s none none linkedID s.history s.presence false
      | some id =>
        let sd := presenceStateFor eventType event
        let next : Presence := { ID := id, State := sd.1, Detail := sd.2, Updated := now }
        match mapLookup s.presence id with
        | some prev =>
          if prev.State != next.State || prev.Detail != next.Detail then
            finishEvent opts now s call0 none linkedID s.history
              (mapInsert s.presence id next) true
          else finishEvent opts now s none none linkedID s.history s.presence false
        | none =>
          finishEvent opts now s call0 none linkedID s.history
            (mapInsert s.presence id next) true
    else finishEvent opts now s none none linkedID s.history s.presence false

/-! ## CDR import (`Service.LoadCDR`) -/

/-- The row loop of `LoadCDR`: skip rows with fewer than 17 columns, rows
whose start or end timestamp fails to parse, and rows whose end time is
older than the retention cutoff; keep the rest as `HistoryCall`s in file
order.  `parseTime` abstracts `parseCDRTime`, whose local/UTC
disambiguation depends on the ambient timezone and wall clock. -/
def collectCDR (parseTime : String → Option Int) (cutoff : Int) :
    List (List String) → List HistoryCall
  | [] => []
  | row :: rest =>
    if row.length < 17 then collectCDR parseTime cutoff rest
    else
      match parseTime (row.getD 9 "") with
      | none => collectCDR parseTime cutoff rest
      | some start =>
        match parseTime (row.getD 11 "") with
        | none => collectCDR parseTime cutoff rest
        | some endT =>
          if endT < cutoff then collectCDR parseTime cutoff rest
          else
            { ID := goTrim (row.getD 16 ""), From := goTrim (row.getD 1 ""),
              To := goTrim (row.getD 2 ""), State := goTrim (row.getD 14 ""),
              EndReason := goTrim (row.getD 14 ""), Start := start, End := endT,
              DurationSec := (goAtoi (goTrim (row.getD 12 ""))).getD 0 } ::
              collectCDR parseTime cutoff rest

/-- The pure core of `LoadCDR`: collect the surviving rows, sort them
newest-end-first (`sort.Slice` with `End.After`), replace the store and
re-apply `pruneLocked`.  Returns the new history. -/
def loadCDRPure (parseTime : String → Option Int) (opts : Options) (now : Int)
    (rows : List (List String)) : List HistoryCall :=
  pruneLocked opts now
    (List.insertionSort (fun a b => b.End ≤ a.End)
      (collectCDR parseTime (now - opts.Retention) rows))

/-! ## Specification-side comparison definitions

These two definitions follow the wording of the specification (not the Go
code) and are proved equivalent to the transcribed code below. -/

/-- Spec-side end-reason classification: lower-case the text and match the
three substring families in order, defaulting to "completed". -/
def specEndReasonClass (text : String) : String :=
  let t := goToLower text
  if containsAny t
      ["404", "not found", "error", "failed", "congestion", "unavailable", "reject"] then
    "error"
  else if containsAny t ["no answer", "busy", "cancel", "timeout"] then "no-answer"
  else if containsAny t ["normal clearing", "answered"] then "answered"
  else "completed"

/-- Spec-side dial-target parsing: the text before the first comma, then
before the first `&`, then, if a `/` remains, the portion after the last
`/`. -/
def specDialTarget (s : String) : String :=
  let p := s.data.takeWhile (fun c => !(c == ','))
  let p := p.takeWhile (fun c => !(c == '&'))
  if p.contains '/' then ⟨(p.reverse.takeWhile (fun c => !(c == '/'))).reverse⟩
  else ⟨p⟩

/-! ## Event fixtures

Parameterised event shapes used by the claim theorems; the concrete field
sets mirror the events exercised by the repository's own tests. -/

/-- A `Newchannel` event. -/
def newchannelEvent (lk leg cid ext : String) : Event :=
  [("Event", "Newchannel"), ("Linkedid", lk), ("Uniqueid", leg),
   ("CallerIDNum", cid), ("Exten", ext)]

/-- A `BridgeEnter` event. -/
def bridgeEnterEvent (lk leg : String) : Event :=
  [("Event", "BridgeEnter"), ("Linkedid", lk), ("Uniqueid", leg)]

/-- A `Hangup` event. -/
def hangupEvent (lk leg cause : String) : Event :=
  [("Event", "Hangup"), ("Linkedid", lk), ("Uniqueid", leg), ("Cause-txt", cause)]

/-- A `DialBegin` event. -/
def dialBeginEvent (lk cid sc ds dc su du : String) : Event :=
  [("Event", "DialBegin"), ("Linkedid", lk), ("CallerIDNum", cid),
   ("SrcChannel", sc), ("DialString", ds), ("DestChannel", dc),
   ("SrcUniqueid", su), ("DestUniqueid", du)]

/-- A `PeerStatus` event. -/
def peerStatusEvent (peer status : String) : Event :=
  [("Event", "PeerStatus"), ("Peer", peer), ("PeerStatus", status)]

/-- A state holding one active call `L1` with leg `u1`, parties already
filled; used to exercise the hangup classification path. -/
def oneCallState (now : Int) : ServiceState :=
  { active := [("L1",
      { call := { ID := "L1", From := "2601", To := "2602", State := "active",
                  Start := now, Updated := now },
        channels := ["u1"] })],
    history := [], presence := [], updated := now }

/-- Default options used by concrete witnesses (the `NewService` defaults:
100 records, 7 days). -/
def defaultOpts : Options := { MaxHistory := 100, Retention := 604800 }

/-- The empty service state. -/
def emptyState : ServiceState :=
  { active := [], history := [], presence := [], updated := 0 }

/-- A well-formed 17-column CDR row used by the import witness. -/
def cdrRowW : List String :=
  ["", "2601", "2602", "", "", "", "", "", "", "999000", "", "999060", "60", "",
   "ANSWERED", "", "id1"]

/-- A state holding one stored presence record for `2601`; used as the
concrete input of the presence-idempotence witness. -/
def presenceStateW : ServiceState :=
  { active := [], history := [],
    presence := [("2601", { ID := "2601", State := "connected", Detail := "", Updated := 3 })],
    updated := 3 }

/-! ## Helper lemmas -/

theorem pruneGo_sublist (cutoff : Int) (M : Nat) :
    ∀ (l : List HistoryCall) (n : Nat), (pruneGo cutoff M l n).Sublist l := by
  intro l
  induction l with
  | nil => intro n; simp [pruneGo]
  | cons a rest ih =>
    intro n
    simp only [pruneGo]
    split
    · exact (ih n).cons a
    · split
      · exact (List.nil_sublist rest).cons₂ a
      · exact (ih (n + 1)).cons₂ a

theorem pruneGo_mem (cutoff : Int) (M : Nat) :
    ∀ (l : List HistoryCall) (n : Nat) (r : HistoryCall),
      r ∈ pruneGo cutoff M l n → ¬(r.End < cutoff) := by
  intro l
  induction l with
  | nil => intro n r hr; simp [pruneGo] at hr
  | cons a rest ih =>
    intro n r hr
    simp only [pruneGo] at hr
    split at hr
    · exact ih n r hr
    · split at hr
      · simp only [List.mem_singleton] at hr
        subst hr; assumption
      · rcases List.mem_cons.mp hr with h | h
        · subst h; assumption
        · exact ih (n + 1) r h

theorem pruneGo_length (cutoff : Int) (M : Nat) :
    ∀ (l : List HistoryCall) (n : Nat), n < M → (pruneGo cutoff M l n).length + n ≤ M := by
  intro l
  induction l with
  | nil => intro n h; simp [pruneGo]; omega
  | cons a rest ih =>
    intro n h
    simp only [pruneGo]
    split
    · exact ih n h
    · split
      · simp; omega
      · have := ih (n + 1) (by omega)
        simp only [List.length_cons]
        omega

theorem pruneGo_eq_self (cutoff : Int) (M : Nat) :
    ∀ (l : List HistoryCall) (n : Nat), (∀ r ∈ l, ¬(r.End < cutoff)) →
      l.length + n ≤ M → pruneGo cutoff M l n = l := by
  intro l
  induction l with
  | nil => intro n _ _; simp [pruneGo]
  | cons a rest ih =>
    intro n hmem hlen
    simp only [pruneGo]
    rw [if_neg (hmem a (List.mem_cons_self a rest))]
    simp only [List.length_cons] at hlen
    split
    · have : rest = [] := by
        cases rest with
        | nil => rfl
        | cons b bs => simp at hlen; omega
      rw [this]
    · rw [ih (n + 1) (fun r hr => hmem r (List.mem_cons_of_mem a hr)) (by omega)]

theorem pruneLocked_eq_self (opts : Options) (now : Int) (l : List HistoryCall)
    (hmem : ∀ r ∈ l, ¬(r.End < now - opts.Retention))
    (hlen : l.length ≤ opts.MaxHistory) : pruneLocked opts now l = l :=
  pruneGo_eq_self _ _ l 0 hmem (by omega)

/-! ## Claim theorems -/

/-- Claim C2: after pruning with retention `R` and maximum count `M`
(`M ≥ 1`, as `NewService` guarantees for every reachable state), every
remaining record's end time is within `R` of the pruning time, the record
count is at most `M`, the surviving records are a sublist of the input
(order preserved), and a newest-first (non-increasing end time) input stays
newest-first. -/
theorem claimC2 (opts : Options) (now : Int) (l : List HistoryCall)
    (hM : 1 ≤ opts.MaxHistory)
    (hsorted : l.Pairwise (fun a b => b.End ≤ a.End)) :
    (∀ r ∈ pruneLocked opts now l, now - r.End ≤ opts.Retention) ∧
    (pruneLocked opts now l).length ≤ opts.MaxHistory ∧
    (pruneLocked opts now l).Sublist l ∧
    (pruneLocked opts now l).Pairwise (fun a b => b.End ≤ a.End) := by
  simp only [pruneLocked]
  refine ⟨?_, ?_, ?_, ?_⟩
  · intro r hr
    have := pruneGo_mem (now - opts.Retention) opts.MaxHistory l 0 r hr
    omega
  · have := pruneGo_length (now - opts.Retention) opts.MaxHistory l 0 (by omega)
    omega
  · exact pruneGo_sublist _ _ l 0
  · exact List.Pairwise.sublist (pruneGo_sublist _ _ l 0) hsorted

/-- Witness for C2 at a concrete input: retention 100211, max 2, three
records of which one is stale and one overflows the cap. -/
theorem claimC2_witness :
    (∀ r ∈ pruneLocked { MaxHistory := 2, Retention := 100 } 1000
        [{ ID := "a", From := "", To := "", State := "completed", EndReason := "",
           Start := 990, End := 995, DurationSec := 5 },
         { ID := "b", From := "", To := "", State := "completed", EndReason := "",
           Start := 980, End := 985, DurationSec := 5 },
         { ID := "c", From := "", To := "", State := "completed", EndReason := "",
           Start := 1, End := 2, DurationSec := 1 }],
      1000 - r.End ≤ 100) ∧
    (pruneLocked { MaxHistory := 2, Retention := 100 } 1000
        [{ ID := "a", From := "", To := "", State := "completed", EndReason := "",
           Start := 990, End := 995, DurationSec := 5 },
         { ID := "b", From := "", To := "", State := "completed", EndReason := "",
           Start := 980, End := 985, DurationSec := 5 },
         { ID := "c", From := "", To := "", State := "completed", EndReason := "",
           Start := 1, End := 2, DurationSec := 1 }]).length ≤ 2 := by
  have h := claimC2 { MaxHistory := 2, Retention := 100 } 1000
    [{ ID := "a", From := "", To := "", State := "completed", EndReason := "",
       Start := 990, End := 995, DurationSec := 5 },
     { ID := "b", From := "", To := "", State := "completed", EndReason := "",
       Start := 980, End := 985, DurationSec := 5 },
     { ID := "c", From := "", To := "", State := "completed", EndReason := "",
       Start := 1, End := 2, DurationSec := 1 }]
    (by decide) (by decide)
  exact ⟨h.1, h.2.1⟩

/-- Claim C4, evaluated at the failing inputs: the code computes
`"connected"` (not `"disconnected"`) for statuses `Unreachable` and
`Unavailable`, because the connected-family substrings `"reachable"` and
`"avail"` are matched before the disconnected family. -/
theorem claimC4_eval :
    presenceStateFor "peerstatus" (peerStatusEvent "PJSIP/2601" "Unreachable")
      = ("connected", "") ∧
    presenceStateFor "endpointstatus"
      [("Event", "EndpointStatus"), ("EndpointName", "2602"),
       ("EndpointStatus", "Unavailable")] = ("connected", "") := by
  constructor <;> decide

theorem beVal_append_single (l : List Nat) (b : Nat) :
    beVal (l ++ [b]) = beVal l * 256 + b := by
  simp [beVal, List.foldl_append]

theorem beVal_beBytes : ∀ (n x : Nat), beVal (beBytes n x) = x % 256 ^ n := by
  intro n
  induction n with
  | zero => intro x; simp [beBytes, beVal, Nat.mod_one]
  | succ n ih =>
    intro x
    rw [beBytes, beVal_append_single, ih]
    have h2 : x >>> 8 = x / 256 := by
      rw [Nat.shiftRight_eq_div_pow]
    rw [h2]
    have h : (256 : Nat) ^ (n + 1) = 256 * 256 ^ n := by ring
    rw [h, Nat.mod_mul]
    omega

/-- Claim C5: the WebSocket accept key is the base64 of the SHA-1 of the
client key plus the RFC 6455 GUID (checked on the RFC's fixed test vector),
and the frame header uses the standard three-tier length scheme — one byte
for payloads up to 125 bytes, marker 126 plus a 2-byte big-endian length up
to 65535 (in particular for 130 bytes), marker 127 plus an 8-byte
big-endian length beyond that — and the second header byte never has the
mask bit set. -/
theorem claimC5 :
    websocketAcceptKey "dGhlIHNhbXBsZSBub25jZQ==" = "s3pPLMBiTxaQ9kYGzzhZRbK+xOo=" ∧
    (∀ op L, L ≤ 125 →
      writeWebSocketFrameHeader op L = [0x80 ||| (op &&& 0x0f), L]) ∧
    (∀ op L, 126 ≤ L → L ≤ 65535 →
      writeWebSocketFrameHeader op L
        = [0x80 ||| (op &&& 0x0f), 126, (L >>> 8) % 256, L % 256] ∧
      ((L >>> 8) % 256) * 256 + L % 256 = L) ∧
    writeWebSocketFrameHeader 0x1 130 = [0x81, 126, 0, 130] ∧
    (∀ op L, 65535 < L → L < 256 ^ 8 →
      writeWebSocketFrameHeader op L = [0x80 ||| (op &&& 0x0f), 127] ++ beBytes 8 L ∧
      beVal (beBytes 8 L) = L) ∧
    (∀ op L, (writeWebSocketFrameHeader op L).getD 1 0 < 128) := by
  refine ⟨?_, ?_, ?_, ?_, ?_, ?_⟩
  · set_option maxRecDepth 100000 in decide
  · intro op L h
    simp [writeWebSocketFrameHeader, h]
  · intro op L h1 h2
    constructor
    · simp only [writeWebSocketFrameHeader]
      rw [if_neg (by omega), if_pos h2]
    · have h3 : L >>> 8 = L / 256 := by
        rw [Nat.shiftRight_eq_div_pow]
      have h4 : L / 256 < 256 := by omega
      rw [h3, Nat.mod_eq_of_lt h4]
      omega
  · decide
  · intro op L h1 h2
    constructor
    · simp only [writeWebSocketFrameHeader]
      rw [if_neg (by omega), if_neg (by omega)]
    · rw [beVal_beBytes]
      exact Nat.mod_eq_of_lt h2
  · intro op L
    by_cases h1 : L ≤ 125
    · simp only [writeWebSocketFrameHeader, if_pos h1, List.getD_cons_succ,
        List.getD_cons_zero]
      omega
    · by_cases h2 : L ≤ 65535
      · simp only [writeWebSocketFrameHeader, if_neg h1, if_pos h2,
          List.getD_cons_succ, List.getD_cons_zero]
        omega
      · simp only [writeWebSocketFrameHeader, if_neg h1, if_neg h2,
          List.cons_append, List.nil_append, List.getD_cons_succ,
          List.getD_cons_zero]
        omega

/-- Witness for C5's quantified tiers at concrete payload lengths 100, 130
and 70000. -/
theorem claimC5_witness :
    ((100 : Nat) ≤ 125 ∧
      writeWebSocketFrameHeader 0x1 100 = [0x81, 100]) ∧
    ((126 : Nat) ≤ 130 ∧ (130 : Nat) ≤ 65535 ∧
      writeWebSocketFrameHeader 0x1 130 = [0x81, 126, 0, 130]) ∧
    ((65535 : Nat) < 70000 ∧
      writeWebSocketFrameHeader 0x1 70000
        = [0x81, 127] ++ beBytes 8 70000 ∧ beVal (beBytes 8 70000) = 70000) ∧
    (writeWebSocketFrameHeader 0x1 70000).getD 1 0 < 128 := by
  refine ⟨⟨by decide, ?_⟩, ⟨by decide, by decide, ?_⟩, ⟨by decide, ?_⟩, ?_⟩
  · exact claimC5.2.1 0x1 100 (by decide)
  · exact claimC5.2.2.2.1
  · exact claimC5.2.2.2.2.1 0x1 70000 (by decide) (by decide)
  · exact claimC5.2.2.2.2.2 0x1 70000

theorem hangupEvent_linkedID (cause : String) :
    linkedIDFor (hangupEvent "L1" "u1" cause) = "L1" := rfl

theorem hangupEvent_channelKey (cause : String) :
    channelKey (hangupEvent "L1" "u1" cause) = "u1" := rfl

theorem hangupEvent_type (cause : String) :
    goToLower (goTrim (eventValue (hangupEvent "L1" "u1" cause) ["Event"])) = "hangup" := rfl

theorem classify_spec_eq (reason : String) :
    classifyEndReason reason = specEndReasonClass reason := by
  simp only [classifyEndReason, specEndReasonClass]
  by_cases h : goToLower reason = ""
  · rw [h]; decide
  · have hb : (goToLower reason != "") = true := bne_iff_ne.mpr h
    rw [hb]
    simp

/-- Claim C3: the end-reason classification applied by `HandleAMIEvent` when
a hangup empties a call's leg set lower-cases the combined
cause/cause-text/dial-status text and matches substrings in the spec's
order (failure family → "error", no-answer family → "no-answer", success
family → "answered", otherwise "completed"); moreover a leg-emptying
hangup records exactly that classification of the event's
`Cause-txt`/`Cause`/`DialStatus` text in the new history record. -/
theorem claimC3 :
    (∀ reason, classifyEndReason reason = specEndReasonClass reason) ∧
    (∀ cause : String,
      ((HandleAMIEvent defaultOpts 12 (hangupEvent "L1" "u1" cause)
          (oneCallState 10)).1.history.head?.map (fun h => h.State))
        = some (classifyEndReason (goTrim (firstNonEmpty
            [eventValue (hangupEvent "L1" "u1" cause) ["Cause-txt"],
             eventValue (hangupEvent "L1" "u1" cause) ["Cause"],
             eventValue (hangupEvent "L1" "u1" cause) ["DialStatus"]])))) := by
  refine ⟨classify_spec_eq, ?_⟩
  intro cause
  simp [HandleAMIEvent, hangupEvent_linkedID, hangupEvent_channelKey,
    hangupEvent_type, mapLookup, finishEvent, ensureCall, setErase,
    oneCallState, defaultOpts, pruneLocked, pruneGo, isPresenceEvent]



theorem splitChar_ne_nil (sep : Char) : ∀ l : List Char, splitChar sep l ≠ [] := by
  intro l
  cases l with
  | nil => simp [splitChar]
  | cons c rest =>
    simp only [splitChar]
    split <;> simp

theorem headD_splitChar (sep : Char) :
    ∀ l : List Char, (splitChar sep l).headD [] = l.takeWhile (fun c => !(c == sep)) := by
  intro l
  induction l with
  | nil => simp [splitChar]
  | cons c rest ih =>
    simp only [splitChar, List.takeWhile_cons]
    by_cases h : c = sep
    · simp [h]
    · have hb : (!(c == sep)) = true := by simp [h]
      rw [if_neg h, hb]
      simp only [List.headD_eq_head?_getD] at ih ⊢
      simp [ih]

theorem takeWhile_all_true {p : Char → Bool} :
    ∀ {xs : List Char}, (∀ x ∈ xs, p x = true) → xs.takeWhile p = xs := by
  intro xs
  induction xs with
  | nil => intro _; rfl
  | cons x rest ih =>
    intro h
    rw [List.takeWhile_cons, if_pos (h x (List.mem_cons_self x rest))]
    rw [ih (fun y hy => h y (List.mem_cons_of_mem x hy))]

theorem takeWhile_append_all {p : Char → Bool} {xs ys : List Char}
    (h : ∀ x ∈ xs, p x = true) :
    (xs ++ ys).takeWhile p = xs ++ ys.takeWhile p := by
  rw [List.takeWhile_append]
  rw [takeWhile_all_true h]
  simp

theorem splitChar_no_sep (sep : Char) :
    ∀ l : List Char, sep ∉ l → splitChar sep l = [l] := by
  intro l
  induction l with
  | nil => intro _; rfl
  | cons c rest ih =>
    intro h
    have hc : ¬(c = sep) := fun hc => h (hc ▸ List.mem_cons_self c rest)
    have hrest : sep ∉ rest := fun hr => h (List.mem_cons_of_mem c hr)
    simp only [splitChar, if_neg hc, ih hrest]
    rfl

theorem splitChar_append_sep (sep : Char) :
    ∀ (xs ys : List Char),
      splitChar sep (xs ++ sep :: ys) = splitChar sep xs ++ splitChar sep ys := by
  intro xs ys
  induction xs with
  | nil => simp [splitChar]
  | cons x xs ih =>
    by_cases h : x = sep
    · subst h
      simp only [List.cons_append, splitChar, List.append_eq, ih]
      simp
    · simp only [List.cons_append, splitChar, List.append_eq]
      rw [ih]
      obtain ⟨a, as, ha⟩ := List.exists_cons_of_ne_nil (splitChar_ne_nil sep xs)
      rw [ha]
      simp [h]

theorem getLastD_append_right {α : Type} (B : List α) (hB : B ≠ []) :
    ∀ (A : List α) (d : α), (A ++ B).getLastD d = B.getLastD d := by
  intro A
  induction A with
  | nil => intro d; rfl
  | cons a A ih =>
    intro d
    rw [List.cons_append, List.getLastD_cons, ih a]
    cases B with
    | nil => exact absurd rfl hB
    | cons b bs => rfl

theorem mem_first_decomp {α : Type} {a : α} :
    ∀ {l : List α}, a ∈ l → ∃ s t, l = s ++ a :: t ∧ a ∉ s := by
  intro l
  induction l with
  | nil => intro h; cases h
  | cons x rest ih =>
    intro h
    by_cases hx : x = a
    · exact ⟨[], rest, by simp [hx], by simp⟩
    · rcases List.mem_cons.mp h with h1 | h2
      · exact absurd h1.symm hx
      · obtain ⟨s, t, hst, hmem⟩ := ih h2
        refine ⟨x :: s, t, by rw [hst]; rfl, ?_⟩
        intro hc
        rcases List.mem_cons.mp hc with h3 | h4
        · exact hx h3.symm
        · exact hmem h4

theorem getLastD_splitChar (sep : Char) (l : List Char) :
    (splitChar sep l).getLastD [] = (l.reverse.takeWhile (fun c => !(c == sep))).reverse := by
  by_cases hmem : sep ∈ l
  · have hrev : sep ∈ l.reverse := List.mem_reverse.mpr hmem
    obtain ⟨s, t, hst, hs⟩ := mem_first_decomp hrev
    have hl : l = t.reverse ++ sep :: s.reverse := by
      have := congrArg List.reverse hst
      simpa using this
    rw [hl, splitChar_append_sep, getLastD_append_right _ (splitChar_ne_nil sep s.reverse)]
    rw [splitChar_no_sep sep s.reverse (by simpa using hs)]
    have hrev2 : (t.reverse ++ sep :: s.reverse).reverse = s ++ sep :: t := by simp
    rw [hrev2]
    have hsall : ∀ x ∈ s, (!(x == sep)) = true := by
      intro x hx
      simp only [Bool.not_eq_true', beq_eq_false_iff_ne]
      intro hc; exact hs (hc ▸ hx)
    rw [takeWhile_append_all hsall]
    simp [List.takeWhile_cons]
  · rw [splitChar_no_sep sep l hmem]
    have hall : ∀ x ∈ l.reverse, (!(x == sep)) = true := by
      intro x hx
      simp only [Bool.not_eq_true', beq_eq_false_iff_ne]
      intro hc
      exact hmem (hc ▸ List.mem_reverse.mp hx)
    rw [takeWhile_all_true hall]
    simp



theorem dropWhile_all_false {p : Char → Bool} :
    ∀ {l : List Char}, (∀ c ∈ l, p c = false) → l.dropWhile p = l := by
  intro l
  cases l with
  | nil => intro _; rfl
  | cons c rest =>
    intro h
    rw [List.dropWhile_cons, if_neg (by simp [h c (List.mem_cons_self c rest)])]

theorem trimChars_of_nospace {l : List Char} (h : ∀ c ∈ l, isSpaceChar c = false) :
    trimChars l = l := by
  unfold trimChars
  rw [dropWhile_all_false h]
  rw [dropWhile_all_false (fun c hc => h c (List.mem_reverse.mp hc))]
  simp

theorem goTrim_of_nospace {s : String} (h : ∀ c ∈ s.data, isSpaceChar c = false) :
    goTrim s = s := by
  show (⟨trimChars s.data⟩ : String) = s
  rw [trimChars_of_nospace h]

theorem claimC6 :
    (∀ s : String, (∀ c ∈ s.data, isSpaceChar c = false) →
      parseDialString s = specDialTarget s) ∧
    parseDialString "PJSIP/8081,30" = "8081" ∧
    parseDialString "PJSIP/2601&PJSIP/2602,20" = "2601" := by
  refine ⟨?_, by decide, by decide⟩
  intro s hs
  have htrim : goTrim s = s := goTrim_of_nospace hs
  simp only [parseDialString, specDialTarget, htrim]
  by_cases hempty : s = ""
  · subst hempty; decide
  · have hb : (s == "") = false := beq_eq_false_iff_ne.mpr hempty
    rw [hb]
    simp only [Bool.false_eq_true, if_false]
    rw [headD_splitChar, headD_splitChar]
    have hmem1 : ∀ c ∈ s.data.takeWhile (fun c => !(c == ',')), isSpaceChar c = false :=
      fun c hc => hs c ((List.takeWhile_sublist _).subset hc)
    have hmem2 : ∀ c ∈ (s.data.takeWhile (fun c => !(c == ','))).takeWhile (fun c => !(c == '&')),
        isSpaceChar c = false :=
      fun c hc => hmem1 c ((List.takeWhile_sublist _).subset hc)
    by_cases hsl : ((s.data.takeWhile (fun c => !(c == ','))).takeWhile (fun c => !(c == '&'))).contains '/'
    · rw [if_pos hsl, if_pos hsl, getLastD_splitChar]
      refine goTrim_of_nospace ?_
      intro c hc
      have h1 := List.mem_reverse.mp hc
      have h2 := (List.takeWhile_sublist _).subset h1
      exact hmem2 c (List.mem_reverse.mp h2)
    · rw [if_neg hsl, if_neg hsl]
      exact goTrim_of_nospace hmem2

/-- Witness for C6 at a concrete space-free dial string. -/
theorem claimC6_witness :
    parseDialString "PJSIP/2601&PJSIP/2602,20"
      = specDialTarget "PJSIP/2601&PJSIP/2602,20" :=
  claimC6.1 "PJSIP/2601&PJSIP/2602,20" (by decide)


theorem isPresenceEvent_hangup : isPresenceEvent "hangup" = false := rfl

theorem isPresenceEvent_bridgeleave : isPresenceEvent "bridgeleave" = false := rfl

/-- Claim C10: a hangup or bridge-leave event whose link key has no entry in
the Active map leaves the whole state (active calls, history, presence,
last-updated timestamp) unchanged, creates no call, and signals no
subscriber. -/
theorem claimC10 (event : Event) (s : ServiceState) (opts : Options) (now : Int)
    (htype : goToLower (goTrim (eventValue event ["Event"])) = "hangup" ∨
             goToLower (goTrim (eventValue event ["Event"])) = "bridgeleave")
    (hnone : mapLookup s.active (linkedIDFor event) = none) :
    HandleAMIEvent opts now event s = (s, false) := by
  by_cases hk : linkedIDFor event = ""
  · rcases htype with h | h <;>
      set_option maxHeartbeats 1000000 in
      simp [HandleAMIEvent, h, hk, isPresenceEvent_hangup, isPresenceEvent_bridgeleave]
  · have hkb : (linkedIDFor event == "") = false := beq_eq_false_iff_ne.mpr hk
    rcases htype with h | h <;>
      set_option maxHeartbeats 1000000 in
      simp [HandleAMIEvent, h, hkb, hnone, isPresenceEvent_hangup,
        isPresenceEvent_bridgeleave, finishEvent]

/-- Witness for C10: a concrete hangup for an unknown link key on the empty
state. -/
theorem claimC10_witness :
    HandleAMIEvent defaultOpts 5 [("Event", "Hangup"), ("Linkedid", "X9")] emptyState
      = (emptyState, false) :=
  claimC10 [("Event", "Hangup"), ("Linkedid", "X9")] emptyState defaultOpts 5
    (Or.inl (by decide)) (by decide)

theorem peerStatusEvent_type (peer status : String) :
    goToLower (goTrim (eventValue (peerStatusEvent peer status) ["Event"])) = "peerstatus" := rfl

set_option maxHeartbeats 8000000 in
theorem peerStatusEvent_linkedID (peer status : String) :
    linkedIDFor (peerStatusEvent peer status) = "" := rfl

theorem isPresenceEvent_peerstatus : isPresenceEvent "peerstatus" = true := rfl

/-- Claim C9: a presence-family event whose computed (state, detail) pair
equals the stored pair for the same canonicalized identity leaves the
stored record in place and signals nobody; when the identity is new or the
computed state or detail differs, the record is replaced and subscribers
are signalled. -/
theorem claimC9 (peer status : String) (s : ServiceState) (opts : Options) (now : Int)
    (pid : String) (hpid : presenceIDFor (peerStatusEvent peer status) = some pid) :
    (∀ prev, mapLookup s.presence pid = some prev →
      prev.State = (presenceStateFor "peerstatus" (peerStatusEvent peer status)).1 →
      prev.Detail = (presenceStateFor "peerstatus" (peerStatusEvent peer status)).2 →
      HandleAMIEvent opts now (peerStatusEvent peer status) s = (s, false)) ∧
    ((mapLookup s.presence pid = none ∨
      (∃ prev, mapLookup s.presence pid = some prev ∧
        (prev.State ≠ (presenceStateFor "peerstatus" (peerStatusEvent peer status)).1 ∨
         prev.Detail ≠ (presenceStateFor "peerstatus" (peerStatusEvent peer status)).2))) →
      (HandleAMIEvent opts now (peerStatusEvent peer status) s).2 = true ∧
      (HandleAMIEvent opts now (peerStatusEvent peer status) s).1.presence
        = mapInsert s.presence pid
            { ID := pid,
              State := (presenceStateFor "peerstatus" (peerStatusEvent peer status)).1,
              Detail := (presenceStateFor "peerstatus" (peerStatusEvent peer status)).2,
              Updated := now }) := by
  rcases hsd : presenceStateFor "peerstatus" (peerStatusEvent peer status) with ⟨st, dt⟩
  constructor
  · intro prev hprev h1 h2
    simp only at h1 h2
    set_option maxHeartbeats 1000000 in
    simp [HandleAMIEvent, peerStatusEvent_type, peerStatusEvent_linkedID,
      isPresenceEvent_peerstatus, hpid, hprev, hsd, h1, h2, finishEvent]
  · intro hdiff
    rcases hdiff with hnone | ⟨prev, hprev, hne⟩
    · constructor <;>
        set_option maxHeartbeats 1000000 in
        simp [HandleAMIEvent, peerStatusEvent_type, peerStatusEvent_linkedID,
          isPresenceEvent_peerstatus, hpid, hnone, hsd, finishEvent]
    · simp only at hne
      rcases hne with h | h <;>
        constructor <;>
          set_option maxHeartbeats 1000000 in
          simp [HandleAMIEvent, peerStatusEvent_type, peerStatusEvent_linkedID,
            isPresenceEvent_peerstatus, hpid, hprev, hsd, h, finishEvent]

/-- Witness for C9: a repeated `Reachable` status for an already-stored
identity leaves the state untouched and produces no signal. -/
theorem claimC9_witness :
    HandleAMIEvent defaultOpts 7 (peerStatusEvent "PJSIP/2601" "Reachable") presenceStateW
      = (presenceStateW, false) :=
  (claimC9 "PJSIP/2601" "Reachable" presenceStateW defaultOpts 7 "2601" (by decide)).1
    { ID := "2601", State := "connected", Detail := "", Updated := 3 }
    (by decide) (by decide) (by decide)



theorem dialBeginEvent_type (lk cid sc ds dc su du : String) :
    goToLower (goTrim (eventValue (dialBeginEvent lk cid sc ds dc su du) ["Event"]))
      = "dialbegin" := rfl

theorem dialBeginEvent_linkedValue (lk cid sc ds dc su du : String)
    (hb : (goTrim lk != "") = true) :
    eventValue (dialBeginEvent lk cid sc ds dc su du) ["Linkedid", "LinkedID", "LinkedId"]
      = goTrim lk := by
  simp [eventValue, dialBeginEvent, hb]

theorem dialBeginEvent_linkedID (lk cid sc ds dc su du : String)
    (hlk1 : goTrim lk = lk) (hlk2 : lk ≠ "") :
    linkedIDFor (dialBeginEvent lk cid sc ds dc su du) = lk := by
  have hb : (goTrim lk != "") = true := by rw [hlk1]; exact bne_iff_ne.mpr hlk2
  have hb2 : (lk != "") = true := bne_iff_ne.mpr hlk2
  have hv := dialBeginEvent_linkedValue lk cid sc ds dc su du hb
  simp only [linkedIDFor, hv, hlk1, firstNonEmpty, hb2, if_true]

set_option maxHeartbeats 1000000 in
theorem dialBeginFold_call (event : Event) (now : Int) (lk : String) :
    (dialBeginFold event now lk none).call.ID = lk ∧
    (dialBeginFold event now lk none).call.State = "dialing" ∧
    (dialBeginFold event now lk none).call.From = firstNonEmpty [
      cleanNumber (eventValue event ["CallerIDNum", "CallerIDnum"]),
      cleanNumber (channelPeer (eventValue event ["SrcChannel", "SourceChannel"]))] ∧
    (dialBeginFold event now lk none).call.To = firstNonEmpty [
      cleanNumber (parseDialString (eventValue event ["DialString", "Dialstring"])),
      cleanNumber (channelPeer (eventValue event ["DestChannel", "DestinationChannel"]))] := by
  simp only [dialBeginFold, ensureCall, Option.getD]
  generalize hf : firstNonEmpty [
      cleanNumber (eventValue event ["CallerIDNum", "CallerIDnum"]),
      cleanNumber (channelPeer (eventValue event ["SrcChannel", "SourceChannel"]))] = fromV
  generalize ht : firstNonEmpty [
      cleanNumber (parseDialString (eventValue event ["DialString", "Dialstring"])),
      cleanNumber (channelPeer (eventValue event ["DestChannel", "DestinationChannel"]))] = toV
  generalize hs : goTrim (eventValue event ["SrcUniqueID", "SrcUniqueId", "SrcUniqueid"]) = srcV
  generalize hd : goTrim (eventValue event ["DestUniqueID", "DestUniqueId", "DestUniqueid"]) = dstV
  by_cases h1 : fromV = "" <;> by_cases h2 : toV = "" <;>
    by_cases h3 : srcV = "" <;> by_cases h4 : dstV = "" <;>
      simp [h1, h2, h3, h4]


set_option maxHeartbeats 2000000 in
/-- Claim C7: a dial-begin event whose link key has no entry in the Active
map creates exactly one active call under that key, in state "dialing",
with from-party the cleaned caller id (else the peer parsed from the source
channel) and to-party the first target parsed from the dial string (else
the peer of the destination channel). -/
theorem claimC7 (lk cid sc ds dc su du : String) (s : ServiceState) (opts : Options) (now : Int)
    (hlk1 : goTrim lk = lk) (hlk2 : lk ≠ "")
    (hnone : mapLookup s.active lk = none) :
    ∃ c : ActiveCall,
      (HandleAMIEvent opts now (dialBeginEvent lk cid sc ds dc su du) s).1.active
        = mapInsert s.active lk c ∧
      c.call.ID = lk ∧
      c.call.State = "dialing" ∧
      c.call.From = firstNonEmpty [
        cleanNumber (eventValue (dialBeginEvent lk cid sc ds dc su du)
          ["CallerIDNum", "CallerIDnum"]),
        cleanNumber (channelPeer (eventValue (dialBeginEvent lk cid sc ds dc su du)
          ["SrcChannel", "SourceChannel"]))] ∧
      c.call.To = firstNonEmpty [
        cleanNumber (parseDialString (eventValue (dialBeginEvent lk cid sc ds dc su du)
          ["DialString", "Dialstring"])),
        cleanNumber (channelPeer (eventValue (dialBeginEvent lk cid sc ds dc su du)
          ["DestChannel", "DestinationChannel"]))] := by
  have hlid := dialBeginEvent_linkedID lk cid sc ds dc su du hlk1 hlk2
  have hbk : (lk == "") = false := beq_eq_false_iff_ne.mpr hlk2
  have hc := dialBeginFold_call (dialBeginEvent lk cid sc ds dc su du) now lk
  refine ⟨{ dialBeginFold (dialBeginEvent lk cid sc ds dc su du) now lk none with
            call := { (dialBeginFold (dialBeginEvent lk cid sc ds dc su du) now lk none).call with
                      Updated := now } }, ?_, ?_, ?_, ?_, ?_⟩
  · simp [HandleAMIEvent, dialBeginEvent_type, hlid, hbk, hnone, finishEvent]
  · exact hc.1
  · exact hc.2.1
  · exact hc.2.2.1
  · exact hc.2.2.2

/-- Witness for C7: the dial-begin event of the repository's own test. -/
theorem claimC7_witness :
    ∃ c : ActiveCall,
      (HandleAMIEvent defaultOpts 20
          (dialBeginEvent "linked-1" "2601" "" "PJSIP/8081,30" "" "src-1" "dst-1")
          emptyState).1.active
        = mapInsert emptyState.active "linked-1" c ∧
      c.call.ID = "linked-1" ∧
      c.call.State = "dialing" ∧
      c.call.From = firstNonEmpty [
        cleanNumber (eventValue (dialBeginEvent "linked-1" "2601" "" "PJSIP/8081,30" "" "src-1" "dst-1")
          ["CallerIDNum", "CallerIDnum"]),
        cleanNumber (channelPeer (eventValue (dialBeginEvent "linked-1" "2601" "" "PJSIP/8081,30" "" "src-1" "dst-1")
          ["SrcChannel", "SourceChannel"]))] ∧
      c.call.To = firstNonEmpty [
        cleanNumber (parseDialString (eventValue (dialBeginEvent "linked-1" "2601" "" "PJSIP/8081,30" "" "src-1" "dst-1")
          ["DialString", "Dialstring"])),
        cleanNumber (channelPeer (eventValue (dialBeginEvent "linked-1" "2601" "" "PJSIP/8081,30" "" "src-1" "dst-1")
          ["DestChannel", "DestinationChannel"]))] :=
  claimC7 "linked-1" "2601" "" "PJSIP/8081,30" "" "src-1" "dst-1" emptyState defaultOpts 20
    rfl (by decide) rfl

theorem mapLookup_insert {α : Type} (m : List (String × α)) (k : String) (v : α) :
    mapLookup (mapInsert m k v) k = some v := by
  induction m with
  | nil => simp [mapInsert, mapLookup]
  | cons kv rest ih =>
    simp only [mapInsert]
    by_cases h : kv.1 == k
    · simp [h, mapLookup]
    · have hb : (kv.1 == k) = false := by simpa using h
      simp only [hb, Bool.false_eq_true, if_false]
      simp [mapLookup, List.find?_cons, hb] at ih ⊢
      exact ih

theorem mapLookup_erase {α : Type} (m : List (String × α)) (k : String) :
    mapLookup (mapErase m k) k = none := by
  induction m with
  | nil => rfl
  | cons kv rest ih =>
    by_cases h : (kv.1 == k) = true
    · simp [mapErase, List.filter_cons, h, mapLookup] at ih ⊢
      exact ih
    · have hb : (kv.1 == k) = false := by simpa using h
      simp [mapErase, List.filter_cons, hb, mapLookup, List.find?_cons] at ih ⊢
      exact ih



theorem newchannelEvent_type (lk leg cid ext : String) :
    goToLower (goTrim (eventValue (newchannelEvent lk leg cid ext) ["Event"]))
      = "newchannel" := rfl

theorem newchannelEvent_linkedID (lk leg cid ext : String)
    (hlk1 : goTrim lk = lk) (hlk2 : lk ≠ "") :
    linkedIDFor (newchannelEvent lk leg cid ext) = lk := by
  have hb : (goTrim lk != "") = true := by rw [hlk1]; exact bne_iff_ne.mpr hlk2
  have hb2 : (lk != "") = true := bne_iff_ne.mpr hlk2
  have hv : eventValue (newchannelEvent lk leg cid ext) ["Linkedid", "LinkedID", "LinkedId"]
      = goTrim lk := by
    simp [eventValue, newchannelEvent, hb]
  simp only [linkedIDFor, hv, hlk1, firstNonEmpty, hb2, if_true]

theorem newchannelEvent_channelKey (lk leg cid ext : String)
    (hleg1 : goTrim leg = leg) (hleg2 : leg ≠ "") :
    channelKey (newchannelEvent lk leg cid ext) = leg := by
  have hb : (goTrim leg != "") = true := by rw [hleg1]; exact bne_iff_ne.mpr hleg2
  have hb2 : (leg != "") = true := bne_iff_ne.mpr hleg2
  have hv : eventValue (newchannelEvent lk leg cid ext) ["Uniqueid", "UniqueID", "UniqueId"]
      = goTrim leg := by
    simp [eventValue, newchannelEvent, hb]
  simp only [channelKey, hv, hleg1, firstNonEmpty, hb2, if_true]

theorem bridgeEnterEvent_type (lk leg : String) :
    goToLower (goTrim (eventValue (bridgeEnterEvent lk leg) ["Event"]))
      = "bridgeenter" := rfl

theorem bridgeEnterEvent_linkedID (lk leg : String)
    (hlk1 : goTrim lk = lk) (hlk2 : lk ≠ "") :
    linkedIDFor (bridgeEnterEvent lk leg) = lk := by
  have hb : (goTrim lk != "") = true := by rw [hlk1]; exact bne_iff_ne.mpr hlk2
  have hb2 : (lk != "") = true := bne_iff_ne.mpr hlk2
  have hv : eventValue (bridgeEnterEvent lk leg) ["Linkedid", "LinkedID", "LinkedId"]
      = goTrim lk := by
    simp [eventValue, bridgeEnterEvent, hb]
  simp only [linkedIDFor, hv, hlk1, firstNonEmpty, hb2, if_true]

theorem bridgeEnterEvent_channelKey (lk leg : String)
    (hleg1 : goTrim leg = leg) (hleg2 : leg ≠ "") :
    channelKey (bridgeEnterEvent lk leg) = leg := by
  have hb : (goTrim leg != "") = true := by rw [hleg1]; exact bne_iff_ne.mpr hleg2
  have hb2 : (leg != "") = true := bne_iff_ne.mpr hleg2
  have hv : eventValue (bridgeEnterEvent lk leg) ["Uniqueid", "UniqueID", "UniqueId"]
      = goTrim leg := by
    simp [eventValue, bridgeEnterEvent, hb]
  simp only [channelKey, hv, hleg1, firstNonEmpty, hb2, if_true]

theorem hangupEvent_typeG (lk leg cause : String) :
    goToLower (goTrim (eventValue (hangupEvent lk leg cause) ["Event"])) = "hangup" := rfl

theorem hangupEvent_linkedIDG (lk leg cause : String)
    (hlk1 : goTrim lk = lk) (hlk2 : lk ≠ "") :
    linkedIDFor (hangupEvent lk leg cause) = lk := by
  have hb : (goTrim lk != "") = true := by rw [hlk1]; exact bne_iff_ne.mpr hlk2
  have hb2 : (lk != "") = true := bne_iff_ne.mpr hlk2
  have hv : eventValue (hangupEvent lk leg cause) ["Linkedid", "LinkedID", "LinkedId"]
      = goTrim lk := by
    simp [eventValue, hangupEvent, hb]
  simp only [linkedIDFor, hv, hlk1, firstNonEmpty, hb2, if_true]

theorem hangupEvent_channelKeyG (lk leg cause : String)
    (hleg1 : goTrim leg = leg) (hleg2 : leg ≠ "") :
    channelKey (hangupEvent lk leg cause) = leg := by
  have hb : (goTrim leg != "") = true := by rw [hleg1]; exact bne_iff_ne.mpr hleg2
  have hb2 : (leg != "") = true := bne_iff_ne.mpr hleg2
  have hv : eventValue (hangupEvent lk leg cause) ["Uniqueid", "UniqueID", "UniqueId"]
      = goTrim leg := by
    simp [eventValue, hangupEvent, hb]
  simp only [channelKey, hv, hleg1, firstNonEmpty, hb2, if_true]



set_option maxHeartbeats 1000000 in
theorem newchannelFold_eval (lk leg cid ext : String) (now : Int)
    (hleg1 : goTrim leg = leg) (hleg2 : leg ≠ "") :
    (newchannelFold (newchannelEvent lk leg cid ext) now lk none).1.call.ID = lk ∧
    (newchannelFold (newchannelEvent lk leg cid ext) now lk none).1.channels = [leg] ∧
    (newchannelFold (newchannelEvent lk leg cid ext) now lk none).2 = true := by
  have hck := newchannelEvent_channelKey lk leg cid ext hleg1 hleg2
  have hb2 : (leg != "") = true := bne_iff_ne.mpr hleg2
  simp only [newchannelFold, ensureCall, Option.getD, hck, hb2, if_true]
  generalize firstNonEmpty [
      cleanNumber (eventValue (newchannelEvent lk leg cid ext) ["CallerIDNum", "CallerIDnum"]),
      cleanNumber (channelPeer (eventValue (newchannelEvent lk leg cid ext) ["Channel"]))] = fromV
  generalize firstNonEmpty [
      cleanTarget (eventValue (newchannelEvent lk leg cid ext) ["Exten"]),
      cleanNumber (eventValue (newchannelEvent lk leg cid ext)
        ["ConnectedLineNum", "ConnectedLineNum"])] = toV
  generalize goToLower (goTrim (eventValue (newchannelEvent lk leg cid ext)
      ["ChannelStateDesc", "Channelstatedesc"])) = stV
  by_cases h1 : fromV = "" <;> by_cases h2 : toV = "" <;> by_cases h3 : stV = "" <;>
    simp [h1, h2, h3, setInsert]



set_option maxHeartbeats 2000000 in
/-- Claim C1: a call whose link key receives, in order, a channel-create
event, a bridge-enter event and a hangup event carrying the same leg id
(and no other events for that key, so no prior Active entry) ends with no
Active entry for the key, and History gains exactly one record, prepended
at the front, whose from- and to-party equal the values the channel-create
event filled into the call.  The history-side hypotheses say the prior
history is within retention and below the maximum count, as is the case
for states reached under `NewService` options between prunings. -/
theorem claimC1 (lk leg cid ext cause : String) (s : ServiceState) (opts : Options) (now : Int)
    (hlk1 : goTrim lk = lk) (hlk2 : lk ≠ "")
    (hleg1 : goTrim leg = leg) (hleg2 : leg ≠ "")
    (hnone : mapLookup s.active lk = none)
    (hhist : ∀ r ∈ s.history, ¬(r.End < now - opts.Retention))
    (hlen : s.history.length < opts.MaxHistory)
    (hR : 0 ≤ opts.Retention) :
    ∃ c1 : ActiveCall,
      mapLookup (HandleAMIEvent opts now (newchannelEvent lk leg cid ext) s).1.active lk
        = some c1 ∧
      mapLookup (HandleAMIEvent opts now (hangupEvent lk leg cause)
          (HandleAMIEvent opts now (bridgeEnterEvent lk leg)
            (HandleAMIEvent opts now (newchannelEvent lk leg cid ext) s).1).1).1.active lk
        = none ∧
      ∃ rec : HistoryCall,
        (HandleAMIEvent opts now (hangupEvent lk leg cause)
          (HandleAMIEvent opts now (bridgeEnterEvent lk leg)
            (HandleAMIEvent opts now (newchannelEvent lk leg cid ext) s).1).1).1.history
          = rec :: s.history ∧
        rec.From = c1.call.From ∧ rec.To = c1.call.To := by
  have hbk : (lk == "") = false := beq_eq_false_iff_ne.mpr hlk2
  have hnct := newchannelEvent_type lk leg cid ext
  have hncl := newchannelEvent_linkedID lk leg cid ext hlk1 hlk2
  have hbet := bridgeEnterEvent_type lk leg
  have hbel := bridgeEnterEvent_linkedID lk leg hlk1 hlk2
  have hbek := bridgeEnterEvent_channelKey lk leg hleg1 hleg2
  have hhgt := hangupEvent_typeG lk leg cause
  have hhgl := hangupEvent_linkedIDG lk leg cause hlk1 hlk2
  have hhgk := hangupEvent_channelKeyG lk leg cause hleg1 hleg2
  have hfold := newchannelFold_eval lk leg cid ext now hleg1 hleg2
  have hp : pruneLocked opts now s.history = s.history :=
    pruneLocked_eq_self opts now s.history hhist (le_of_lt hlen)
  set F := (newchannelFold (newchannelEvent lk leg cid ext) now lk none).1 with hF
  set C1 := { F with call := { F.call with Updated := now } } with hC1
  set C2 : ActiveCall :=
    ⟨⟨F.call.ID, F.call.From, F.call.To, "active", F.call.Start, now⟩, [leg]⟩ with hC2
  set rec0 : HistoryCall :=
    ⟨lk, F.call.From, F.call.To,
      classifyEndReason (goTrim (firstNonEmpty [
        eventValue (hangupEvent lk leg cause) ["Cause-txt"],
        eventValue (hangupEvent lk leg cause) ["Cause"],
        eventValue (hangupEvent lk leg cause) ["DialStatus"]])),
      goTrim (firstNonEmpty [
        eventValue (hangupEvent lk leg cause) ["Cause-txt"],
        eventValue (hangupEvent lk leg cause) ["Cause"],
        eventValue (hangupEvent lk leg cause) ["DialStatus"]]),
      F.call.Start, now, now - F.call.Start⟩ with hrec0
  have hp2 : ∀ r : HistoryCall, r.End = now →
      pruneLocked opts now (r :: s.history) = r :: s.history := by
    intro r hr
    apply pruneGo_eq_self
    · intro x hx
      rcases List.mem_cons.mp hx with h | h
      · subst h; rw [hr]; omega
      · exact hhist x h
    · simp only [List.length_cons]; omega
  have e1eq : HandleAMIEvent opts now (newchannelEvent lk leg cid ext) s
      = ({ active := mapInsert s.active lk C1, history := s.history,
           presence := s.presence, updated := now }, true) := by
    simp [HandleAMIEvent, hnct, hncl, hbk, hnone, hfold.2.2, hp, finishEvent, hC1]
  have e2eq : HandleAMIEvent opts now (bridgeEnterEvent lk leg)
      ({ active := mapInsert s.active lk C1, history := s.history,
         presence := s.presence, updated := now } : ServiceState)
      = ({ active := mapInsert (mapInsert s.active lk C1) lk C2, history := s.history,
           presence := s.presence, updated := now }, true) := by
    simp [HandleAMIEvent, hbet, hbel, hbek, hbk, hleg2, mapLookup_insert, hp, finishEvent,
      ensureCall, hC1, hC2, hfold.2.1, setInsert]
  have e3eq : HandleAMIEvent opts now (hangupEvent lk leg cause)
      ({ active := mapInsert (mapInsert s.active lk C1) lk C2, history := s.history,
         presence := s.presence, updated := now } : ServiceState)
      = ({ active := mapErase (mapInsert (mapInsert s.active lk C1) lk C2) lk,
           history := rec0 :: s.history,
           presence := s.presence, updated := now }, true) := by
    set_option maxHeartbeats 8000000 in
    simp [HandleAMIEvent, hhgt, hhgl, hhgk, hbk, hleg2, mapLookup_insert, hp2, finishEvent,
      ensureCall, hC2, hrec0, setErase, hfold.1]
  refine ⟨C1, ?_, ?_, ?_⟩
  · rw [e1eq]
    exact mapLookup_insert s.active lk C1
  · rw [e1eq]
    dsimp only
    rw [e2eq]
    dsimp only
    rw [e3eq]
    exact mapLookup_erase _ lk
  · rw [e1eq]
    dsimp only
    rw [e2eq]
    dsimp only
    rw [e3eq]
    exact ⟨rec0, rfl, by simp [hrec0, hC1], by simp [hrec0, hC1]⟩



/-- Witness for C1: the three-event lifecycle of the repository's own test
on the empty state. -/
theorem claimC1_witness :
    ∃ c1 : ActiveCall,
      mapLookup (HandleAMIEvent defaultOpts 10
          (newchannelEvent "abc" "u1" "2601" "2602") emptyState).1.active "abc"
        = some c1 ∧
      mapLookup (HandleAMIEvent defaultOpts 10 (hangupEvent "abc" "u1" "Normal Clearing")
          (HandleAMIEvent defaultOpts 10 (bridgeEnterEvent "abc" "u1")
            (HandleAMIEvent defaultOpts 10
              (newchannelEvent "abc" "u1" "2601" "2602") emptyState).1).1).1.active "abc"
        = none ∧
      ∃ rec : HistoryCall,
        (HandleAMIEvent defaultOpts 10 (hangupEvent "abc" "u1" "Normal Clearing")
          (HandleAMIEvent defaultOpts 10 (bridgeEnterEvent "abc" "u1")
            (HandleAMIEvent defaultOpts 10
              (newchannelEvent "abc" "u1" "2601" "2602") emptyState).1).1).1.history
          = rec :: emptyState.history ∧
        rec.From = c1.call.From ∧ rec.To = c1.call.To :=
  claimC1 "abc" "u1" "2601" "2602" "Normal Clearing" emptyState defaultOpts 10
    rfl (by decide) rfl (by decide) rfl (by simp [emptyState]) (by decide) (by decide)

theorem collectCDR_append (p : String → Option Int) (c : Int) :
    ∀ xs ys, collectCDR p c (xs ++ ys) = collectCDR p c xs ++ collectCDR p c ys := by
  intro xs ys
  induction xs with
  | nil => rfl
  | cons row rest ih =>
    simp only [List.cons_append, collectCDR]
    repeat' split
    all_goals simp [ih]

theorem collectCDR_skip (p : String → Option Int) (c : Int) (bad : List String)
    (rows : List (List String))
    (hbad : bad.length < 17 ∨ p (bad.getD 9 "") = none ∨
      (∃ st, p (bad.getD 9 "") = some st ∧ p (bad.getD 11 "") = none) ∨
      (∃ e, p (bad.getD 11 "") = some e ∧ e < c)) :
    collectCDR p c (bad :: rows) = collectCDR p c rows := by
  rcases hbad with h | h | ⟨st, h9, h11⟩ | ⟨e, h11, he⟩
  · simp [collectCDR, h]
  · have h' : p (bad[9]?.getD "") = none := by simpa using h
    by_cases hl : bad.length < 17 <;> simp [collectCDR, hl, h']
  · have h9' : p (bad[9]?.getD "") = some st := by simpa using h9
    have h11' : p (bad[11]?.getD "") = none := by simpa using h11
    by_cases hl : bad.length < 17 <;> simp [collectCDR, hl, h9', h11']
  · have h11' : p (bad[11]?.getD "") = some e := by simpa using h11
    by_cases hl : bad.length < 17
    · simp [collectCDR, hl]
    · match h9 : p (bad.getD 9 "") with
      | none =>
        have h9' : p (bad[9]?.getD "") = none := by simpa using h9
        simp [collectCDR, hl, h9']
      | some st =>
        have h9' : p (bad[9]?.getD "") = some st := by simpa using h9
        simp [collectCDR, hl, h9', h11', he]

/-- Claim C8: CDR import skips any row with fewer than 17 columns or an
unparseable start or end timestamp, excludes rows whose end time is older
than the retention cutoff, and produces a history that is pruned to the
retention window and maximum count and sorted newest-end-first.
`parseTime` abstracts `parseCDRTime`, whose local/UTC disambiguation
depends on the ambient timezone and wall clock. -/
theorem claimC8 (parseTime : String → Option Int) (opts : Options) (now : Int)
    (hM : 1 ≤ opts.MaxHistory) :
    (∀ (rows₁ rows₂ : List (List String)) (bad : List String),
      (bad.length < 17 ∨ parseTime (bad.getD 9 "") = none ∨
       (∃ st, parseTime (bad.getD 9 "") = some st ∧ parseTime (bad.getD 11 "") = none) ∨
       (∃ e, parseTime (bad.getD 11 "") = some e ∧ e < now - opts.Retention)) →
      loadCDRPure parseTime opts now (rows₁ ++ bad :: rows₂)
        = loadCDRPure parseTime opts now (rows₁ ++ rows₂)) ∧
    (∀ rows : List (List String),
      (∀ r ∈ loadCDRPure parseTime opts now rows, now - r.End ≤ opts.Retention) ∧
      (loadCDRPure parseTime opts now rows).length ≤ opts.MaxHistory ∧
      (loadCDRPure parseTime opts now rows).Pairwise (fun a b => b.End ≤ a.End)) := by
  haveI hTot : IsTotal HistoryCall (fun a b => b.End ≤ a.End) :=
    ⟨fun a b => le_total b.End a.End⟩
  haveI hTr : IsTrans HistoryCall (fun a b => b.End ≤ a.End) :=
    ⟨fun a b c h1 h2 => le_trans h2 h1⟩
  constructor
  · intro rows₁ rows₂ bad hbad
    unfold loadCDRPure
    rw [collectCDR_append, collectCDR_skip parseTime _ bad rows₂ hbad, ← collectCDR_append]
  · intro rows
    refine ⟨?_, ?_, ?_⟩
    · intro r hr
      have := pruneGo_mem (now - opts.Retention) opts.MaxHistory _ 0 r hr
      omega
    · have := pruneGo_length (now - opts.Retention) opts.MaxHistory
        (List.insertionSort (fun a b => b.End ≤ a.End)
          (collectCDR parseTime (now - opts.Retention) rows)) 0 (by omega)
      simp only [loadCDRPure, pruneLocked]
      omega
    · exact List.Pairwise.sublist (pruneGo_sublist _ _ _ 0)
        (List.sorted_insertionSort (fun a b => b.End ≤ a.End)
          (collectCDR parseTime (now - opts.Retention) rows))


/-- Witness for C8: a short row is skipped and a valid row survives
the import pipeline under the default options. -/
theorem claimC8_witness :
    loadCDRPure goAtoi defaultOpts 1000000 ([] ++ ["short"] :: [cdrRowW])
      = loadCDRPure goAtoi defaultOpts 1000000 ([] ++ [cdrRowW]) ∧
    (loadCDRPure goAtoi defaultOpts 1000000 [cdrRowW]).length ≤ defaultOpts.MaxHistory :=
  ⟨(claimC8 goAtoi defaultOpts 1000000 (by decide)).1 [] [cdrRowW] ["short"]
      (Or.inl (by decide)),
   ((claimC8 goAtoi defaultOpts 1000000 (by decide)).2 [cdrRowW]).2.1⟩

end Phonebook
